import Mathlib

/-!
# Akhdar BI Command Center — verification of the transform pipeline

Shallow embedding of the ETL transform logic of the `etl` package
(`build_staging.py`, `build_dimensions.py`, `build_facts.py`, `run_all.py`).

Conventions of the embedding:
* SQL `NUMERIC` columns are modelled as `ℚ` (`Option ℚ` where the column is
  nullable); `INTEGER`/`BIGINT` as `ℤ` or `Nat`.
* Text columns loaded from CSV arrive as strings with the empty string for a
  missing cell (the raw loader uses `keep_default_na=False`), so text fields
  are `String` and `""` plays the role of both SQL `NULL` and the empty cell,
  exactly as the `WHERE col IS NOT NULL AND col != ''` filters treat them.
* SQL three-valued logic is made explicit: `CASE WHEN` conditions over a
  `NULL` operand take the `ELSE` branch, `=` between nullable columns only
  matches non-null equal values, and aggregate `SUM` ignores `NULL` inputs
  (returning `NULL` when no non-null input exists).
-/

namespace AkhdarBI

/-- SQL `SUM` over a nullable numeric column: `NULL` inputs are ignored and
the result is `NULL` when there is no non-null input at all. -/
def sqlSum (xs : List (Option ℚ)) : Option ℚ :=
  match xs.filterMap id with
  | [] => none
  | vs => some vs.sum

/-- SQL equality between two nullable integer columns (`a = b` is true only
when both sides are non-null and equal; `NULL = NULL` is not true). -/
def sqlEqInt (a b : Option ℤ) : Bool :=
  match a, b with
  | some x, some y => x == y
  | _, _ => false

/-! ## Staging rows (`build_staging.py`)

`stg_orders` is deduplicated to one row per order id (`SELECT DISTINCT ON
(id)`), so `order_id` is a plain `Nat` here.  `discount_amount` and
`refunded_amount` are `COALESCE`d to `0` during staging and hence not
nullable; `subtotal` stays nullable. -/

/-- A row of `staging.stg_orders` (the columns the fact/dimension builders
read). -/
structure StgOrder where
  order_id : Nat
  email : String
  subtotal : Option ℚ
  discount_amount : ℚ
  refunded_amount : ℚ
  shipping_method : String
  source : String
  deriving Repr, DecidableEq

/-- A row of `staging.stg_order_lines` (the columns the fact builder reads).
`lineitem_quantity` is `COALESCE`d to `1` during staging, `lineitem_discount`
to `0`; `lineitem_price` stays nullable. -/
structure StgOrderLine where
  order_id : Nat
  line_number : Nat
  lineitem_name : String
  lineitem_quantity : ℤ
  lineitem_price : Option ℚ
  lineitem_discount : ℚ
  deriving Repr, DecidableEq

/-! ## `fact_order` (`build_facts.py`, first statement) -/

/-- The rows of `stg_order_lines` belonging to one order (the `GROUP BY
order_id` partition of the `order_line_summary` CTE). -/
def orderLinesOf (lines : List StgOrderLine) (oid : Nat) : List StgOrderLine :=
  lines.filter (fun l => l.order_id == oid)

/-- One group of the `order_line_summary` CTE. -/
structure OrderLineSummary where
  unit_count : ℤ
  line_item_count : ℤ
  calculated_gross : Option ℚ
  deriving Repr, DecidableEq

/-- The `order_line_summary` CTE evaluated for one order id: `none` when the
order has no staged lines (the `LEFT JOIN` finds no group). -/
def orderLineSummary (lines : List StgOrderLine) (oid : Nat) :
    Option OrderLineSummary :=
  match orderLinesOf lines oid with
  | [] => none
  | ls => some
      { unit_count := (ls.map (·.lineitem_quantity)).sum
      , line_item_count := (ls.length : ℤ)
      , calculated_gross :=
          sqlSum (ls.map (fun l =>
            l.lineitem_price.map (· * (l.lineitem_quantity : ℚ)))) }

/-- A row of `warehouse.fact_order` (the columns the order-line builder and
the claims read). -/
structure FactOrder where
  order_id : Nat
  gross_product_sales : Option ℚ
  order_discount_amount : ℚ
  subtotal : Option ℚ
  net_sales : Option ℚ
  line_item_count : ℤ
  unit_count : ℤ
  deriving Repr, DecidableEq

/-- The `INSERT INTO warehouse.fact_order` statement: one fact row per staged
order, with the line aggregates left-joined on and `COALESCE` fallbacks when
the order has no lines. -/
def buildFactOrder (orders : List StgOrder) (lines : List StgOrderLine) :
    List FactOrder :=
  orders.map fun o =>
    let ols := orderLineSummary lines o.order_id
    { order_id := o.order_id
    , gross_product_sales :=
        match ols.bind (·.calculated_gross) with
        | some g => some g
        | none => o.subtotal.map (· + o.discount_amount)
    , order_discount_amount := o.discount_amount
    , subtotal := o.subtotal
    , net_sales := o.subtotal.map (· - o.refunded_amount)
    , line_item_count := match ols with | some s => s.line_item_count | none => 1
    , unit_count := match ols with | some s => s.unit_count | none => 1 }

/-! ## `fact_order_line` (`build_facts.py`, second statement) -/

/-- A row of the `line_with_allocation` CTE. -/
structure LineAlloc where
  order_id : Nat
  line_number : Nat
  lineitem_name : String
  quantity : ℤ
  unit_price : Option ℚ
  gross_line_revenue : Option ℚ
  line_discount : ℚ
  order_discount_amount : ℚ
  gross_product_sales : Option ℚ
  allocated_order_discount : Option ℚ
  deriving Repr, DecidableEq

/-- The proportional-allocation `CASE` expression.  When
`fo.gross_product_sales > 0` is not true (gross `NULL`, zero or negative) the
`ELSE 0` branch applies; when it is true the `THEN` branch is
`price × qty / gross × discount`, which is itself `NULL` when the price is
`NULL`. -/
def allocatedOrderDiscount (gross : Option ℚ) (discount : ℚ)
    (price : Option ℚ) (qty : ℤ) : Option ℚ :=
  match gross with
  | some g =>
      if 0 < g then price.map (fun p => p * (qty : ℚ) / g * discount)
      else some 0
  | none => some 0

/-- The `line_with_allocation` CTE: staged lines inner-joined to their fact
order row. -/
def buildLineAlloc (orders : List StgOrder) (lines : List StgOrderLine) :
    List LineAlloc :=
  lines.flatMap fun l =>
    (buildFactOrder orders lines).filterMap fun fo =>
      if l.order_id == fo.order_id then
        some
          { order_id := l.order_id
          , line_number := l.line_number
          , lineitem_name := l.lineitem_name
          , quantity := l.lineitem_quantity
          , unit_price := l.lineitem_price
          , gross_line_revenue :=
              l.lineitem_price.map (· * (l.lineitem_quantity : ℚ))
          , line_discount := l.lineitem_discount
          , order_discount_amount := fo.order_discount_amount
          , gross_product_sales := fo.gross_product_sales
          , allocated_order_discount :=
              allocatedOrderDiscount fo.gross_product_sales
                fo.order_discount_amount l.lineitem_price l.lineitem_quantity }
      else none

/-! ## Product dimension (`build_dimensions.py`, `dim_product`) and the
order-line fact with COGS (`build_facts.py`, remaining statements) -/

/-- A row of `staging.stg_products` (the columns the product dimension
reads).  `handle` is non-empty (staging filters `handle != ''`). -/
structure StgProduct where
  handle : String
  vendor : String
  variant_price : Option ℚ
  deriving Repr, DecidableEq

/-- A row of `staging.stg_product_sku_map`. -/
structure SkuMapRow where
  internal_sku : String
  lineitem_name : String
  product_handle : String
  size_ml : Option ℤ
  recipe_id : String
  product_category : String
  is_active : Bool
  deriving Repr, DecidableEq

/-- A row of `warehouse.dim_product`.  `product_key` is the serial surrogate
key, modelled as the insertion index. -/
structure DimProduct where
  product_key : Nat
  internal_sku : String
  product_title : String
  size_ml : Option ℤ
  recipe_id : String
  vendor : String
  variant_price : ℚ
  deriving Repr, DecidableEq

/-- SQL `LEFT JOIN`: every left row appears, paired with each matching right
row, or with `none` when no right row matches. -/
def leftJoin (xs : List α) (ys : List β) (cond : α → β → Bool) :
    List (α × Option β) :=
  xs.flatMap fun x =>
    match ys.filter (cond x) with
    | [] => [(x, none)]
    | ms => ms.map (fun y => (x, some y))

/-- Assign consecutive serial keys to the product-dimension insert list. -/
def numberProducts : Nat → List (SkuMapRow × Option StgProduct) →
    List DimProduct
  | _, [] => []
  | k, (s, p) :: ts =>
      { product_key := k
      , internal_sku := s.internal_sku
      , product_title := s.lineitem_name
      , size_ml := s.size_ml
      , recipe_id := s.recipe_id
      , vendor := match p with | some q => q.vendor | none => "Akhdar Perfumes"
      , variant_price := ((p.bind (·.variant_price)).getD (21 / 2)) } ::
        numberProducts (k + 1) ts

/-- The `INSERT INTO warehouse.dim_product` statement: the SKU map
left-joined to product metadata by handle, with `COALESCE` defaults for
vendor (`'Akhdar Perfumes'`) and price (`10.50`). -/
def buildDimProduct (skm : List SkuMapRow) (prods : List StgProduct) :
    List DimProduct :=
  numberProducts 0 (leftJoin skm prods (fun s p => s.product_handle == p.handle))

/-- A row of `warehouse.fact_order_line` as first inserted (COGS columns
still `NULL`, omitted here; they are filled by `applyCogsUpdate`).
`order_line_key` is the serial surrogate key, modelled as the insertion
index. -/
structure FactOrderLine where
  order_line_key : Nat
  order_id : Nat
  line_number : Nat
  product_key : Option Nat
  quantity : ℤ
  unit_price : Option ℚ
  gross_line_revenue : Option ℚ
  line_discount : ℚ
  allocated_order_discount : Option ℚ
  net_line_revenue : Option ℚ
  deriving Repr, DecidableEq

/-- The joined tuples of the `fact_order_line` insert: allocation rows
left-joined to the SKU map by line-item name, then to `dim_product` by
internal SKU (a missed SKU-map join propagates a `NULL` product key). -/
def factOrderLineJoin (orders : List StgOrder) (lines : List StgOrderLine)
    (skm : List SkuMapRow) (dps : List DimProduct) :
    List ((LineAlloc × Option SkuMapRow) × Option DimProduct) :=
  leftJoin (leftJoin (buildLineAlloc orders lines) skm
      (fun la s => la.lineitem_name == s.lineitem_name)) dps
    (fun p dp =>
      match p.2 with
      | some s => s.internal_sku == dp.internal_sku
      | none => false)

/-- One inserted `fact_order_line` row (serial key `k`). -/
def mkFactOrderLine (k : Nat)
    (t : (LineAlloc × Option SkuMapRow) × Option DimProduct) : FactOrderLine :=
  { order_line_key := k
  , order_id := t.1.1.order_id
  , line_number := t.1.1.line_number
  , product_key := t.2.map (·.product_key)
  , quantity := t.1.1.quantity
  , unit_price := t.1.1.unit_price
  , gross_line_revenue := t.1.1.gross_line_revenue
  , line_discount := t.1.1.line_discount
  , allocated_order_discount := t.1.1.allocated_order_discount
  , net_line_revenue :=
      match t.1.1.gross_line_revenue, t.1.1.allocated_order_discount with
      | some g, some a => some (g - t.1.1.line_discount - a)
      | _, _ => none }

/-- Assign consecutive serial keys to the `fact_order_line` insert list. -/
def numberLines : Nat →
    List ((LineAlloc × Option SkuMapRow) × Option DimProduct) →
    List FactOrderLine
  | _, [] => []
  | k, t :: ts => mkFactOrderLine k t :: numberLines (k + 1) ts

/-- The `INSERT INTO warehouse.fact_order_line` statement. -/
def buildFactOrderLinePre (orders : List StgOrder) (lines : List StgOrderLine)
    (skm : List SkuMapRow) (dps : List DimProduct) : List FactOrderLine :=
  numberLines 0 (factOrderLineJoin orders lines skm dps)

/-- A row of `staging.stg_recipes`. -/
structure StgRecipe where
  recipe_id : String
  variant : String
  batch_size_ml : Option ℤ
  ingredient_match : String
  amount_ml : Option ℚ
  material_id : String
  deriving Repr, DecidableEq

/-- A row of `warehouse.dim_material` (a typed copy of
`staging.stg_material_costs`). -/
structure DimMaterial where
  material_id : String
  cost_per_unit : Option ℚ
  cost_per_ml : Option ℚ
  has_known_cost : Bool
  deriving Repr, DecidableEq

/-- A row of `warehouse.fact_cogs_estimate` (the columns the rollup reads). -/
structure CogsEstimate where
  order_line_key : Nat
  ingredient_name : String
  amount_ml : Option ℚ
  line_cost : Option ℚ
  has_known_cost : Bool
  deriving Repr, DecidableEq

/-- The `line_cost` `CASE`: amount × cost-per-ml when a volumetric cost is
known, flat cost-per-unit when only a unit cost is known, `0` otherwise
(including a missed material join, where `dm.has_known_cost` is `NULL`).
The first branch is `NULL` when `amount_ml` is `NULL`. -/
def lineCost (dm : Option DimMaterial) (amount : Option ℚ) : Option ℚ :=
  match dm with
  | none => some 0
  | some m =>
      match m.has_known_cost, m.cost_per_ml, m.cost_per_unit with
      | true, some cml, _ => amount.map (· * cml)
      | true, none, some cpu => some cpu
      | _, _, _ => some 0

/-- The recipe-join condition of the COGS insert: same recipe id, equal
(non-`NULL`) batch size, and the `'final'` variant only. -/
def recipeMatches (dp : DimProduct) (r : StgRecipe) : Bool :=
  dp.recipe_id == r.recipe_id && sqlEqInt r.batch_size_ml dp.size_ml &&
    r.variant == "final"

/-- The `fact_cogs_estimate` rows generated by one `fact_order_line` row:
join to its product, to the product's `'final'` recipe entries, and
left-join each entry to its material. -/
def cogsRowsFor (dps : List DimProduct) (recipes : List StgRecipe)
    (materials : List DimMaterial) (fol : FactOrderLine) : List CogsEstimate :=
  match fol.product_key with
  | none => []
  | some pk =>
      (dps.filter (fun dp => dp.product_key == pk)).flatMap fun dp =>
        (recipes.filter (recipeMatches dp)).flatMap fun r =>
          match materials.filter (fun dm => dm.material_id == r.material_id) with
          | [] =>
              [{ order_line_key := fol.order_line_key
               , ingredient_name := r.ingredient_match
               , amount_ml := r.amount_ml
               , line_cost := lineCost none r.amount_ml
               , has_known_cost := false }]
          | ms => ms.map fun dm =>
              { order_line_key := fol.order_line_key
              , ingredient_name := r.ingredient_match
              , amount_ml := r.amount_ml
              , line_cost := lineCost (some dm) r.amount_ml
              , has_known_cost := dm.has_known_cost }

/-- The `INSERT INTO warehouse.fact_cogs_estimate` statement. -/
def buildCogsEstimates (fols : List FactOrderLine) (dps : List DimProduct)
    (recipes : List StgRecipe) (materials : List DimMaterial) :
    List CogsEstimate :=
  fols.flatMap (cogsRowsFor dps recipes materials)

/-- A row of `warehouse.fact_order_line` after the two COGS `UPDATE`
statements. -/
structure FactOrderLineF where
  order_line_key : Nat
  order_id : Nat
  line_number : Nat
  product_key : Option Nat
  quantity : ℤ
  unit_price : Option ℚ
  gross_line_revenue : Option ℚ
  line_discount : ℚ
  allocated_order_discount : Option ℚ
  net_line_revenue : Option ℚ
  estimated_cogs : ℚ
  has_missing_cost : Bool
  gross_margin : Option ℚ
  margin_percent : Option ℚ
  deriving Repr, DecidableEq

/-- The two `UPDATE` statements applied to one `fact_order_line` row: rows
with a `cogs_summary` group get the rolled-up values, rows without get the
`estimated_cogs = 0`, `has_missing_cost = true`, `margin_percent = 100`
defaults.  `net_line_revenue / NULLIF(quantity, 0)` is `NULL` when the
quantity is `0` or the net revenue is `NULL`. -/
def applyCogsUpdate (cogs : List CogsEstimate) (fol : FactOrderLine) :
    FactOrderLineF :=
  let rows := cogs.filter (fun c => c.order_line_key == fol.order_line_key)
  let perUnit : Option ℚ :=
    if fol.quantity = 0 then none
    else fol.net_line_revenue.map (fun n => n / (fol.quantity : ℚ))
  let base : FactOrderLineF :=
    { order_line_key := fol.order_line_key
    , order_id := fol.order_id
    , line_number := fol.line_number
    , product_key := fol.product_key
    , quantity := fol.quantity
    , unit_price := fol.unit_price
    , gross_line_revenue := fol.gross_line_revenue
    , line_discount := fol.line_discount
    , allocated_order_discount := fol.allocated_order_discount
    , net_line_revenue := fol.net_line_revenue
    , estimated_cogs := 0
    , has_missing_cost := true
    , gross_margin := perUnit
    , margin_percent := some 100 }
  if rows.isEmpty then base
  else
    let total := (sqlSum (rows.map (·.line_cost))).getD 0
    { base with
      estimated_cogs := total
    , has_missing_cost := rows.any (fun c => !c.has_known_cost)
    , gross_margin := perUnit.map (· - total)
    , margin_percent :=
        match fol.net_line_revenue with
        | some n =>
            if 0 < n then perUnit.map (fun pu => (pu - total) / pu * 100)
            else some 0
        | none => some 0 }

/-- The complete order-line fact build: insert, per-ingredient COGS insert,
then the two updates. -/
def buildFactOrderLineFinal (orders : List StgOrder)
    (lines : List StgOrderLine) (skm : List SkuMapRow)
    (prods : List StgProduct) (recipes : List StgRecipe)
    (materials : List DimMaterial) : List FactOrderLineF :=
  let dps := buildDimProduct skm prods
  let pre := buildFactOrderLinePre orders lines skm dps
  let cogs := buildCogsEstimates pre dps recipes materials
  pre.map (applyCogsUpdate cogs)

/-! ## SHA-256 (the digest used by `sha256(...)` in SQL and `hashlib` in
Python)

Standard FIPS 180-4 SHA-256 over a byte list, words as `Nat` reduced mod
`2^32`.  Strings are taken as their character codes (the staged emails are
ASCII, where this coincides with UTF-8). -/

/-- 32-bit rotate right. -/
def rotr (n x : Nat) : Nat := ((x >>> n) ||| (x <<< (32 - n))) % 4294967296

/-- SHA-256 `Ch` function (`¬x` as xor with `2^32 - 1`). -/
def shaCh (x y z : Nat) : Nat := (x &&& y) ^^^ ((x ^^^ 4294967295) &&& z)

/-- SHA-256 `Maj` function. -/
def shaMaj (x y z : Nat) : Nat := (x &&& y) ^^^ (x &&& z) ^^^ (y &&& z)

/-- SHA-256 `Σ₀`. -/
def bigSigma0 (x : Nat) : Nat := rotr 2 x ^^^ rotr 13 x ^^^ rotr 22 x

/-- SHA-256 `Σ₁`. -/
def bigSigma1 (x : Nat) : Nat := rotr 6 x ^^^ rotr 11 x ^^^ rotr 25 x

/-- SHA-256 `σ₀`. -/
def smallSigma0 (x : Nat) : Nat := rotr 7 x ^^^ rotr 18 x ^^^ (x >>> 3)

/-- SHA-256 `σ₁`. -/
def smallSigma1 (x : Nat) : Nat := rotr 17 x ^^^ rotr 19 x ^^^ (x >>> 10)

/-- The 64 SHA-256 round constants. -/
def shaK : List Nat :=
  [1116352408, 1899447441, 3049323471, 3921009573, 961987163,
   1508970993, 2453635748, 2870763221, 3624381080, 310598401,
   607225278, 1426881987, 1925078388, 2162078206, 2614888103,
   3248222580, 3835390401, 4022224774, 264347078, 604807628,
   770255983, 1249150122, 1555081692, 1996064986, 2554220882,
   2821834349, 2952996808, 3210313671, 3336571891, 3584528711,
   113926993, 338241895, 666307205, 773529912, 1294757372,
   1396182291, 1695183700, 1986661051, 2177026350, 2456956037,
   2730485921, 2820302411, 3259730800, 3345764771, 3516065817,
   3600352804, 4094571909, 275423344, 430227734, 506948616,
   659060556, 883997877, 958139571, 1322822218, 1537002063,
   1747873779, 1955562222, 2024104815, 2227730452, 2361852424,
   2428436474, 2756734187, 3204031479, 3329325298]

/-- The SHA-256 initial hash value. -/
def shaInit : List Nat :=
  [1779033703, 3144134277, 1013904242, 2773480762,
   1359893119, 2600822924, 528734635, 1541459225]

/-- Extend the 16 block words to 64 schedule words; `acc` holds the words
produced so far, newest first. -/
def scheduleAux : Nat → List Nat → List Nat
  | 0, acc => acc
  | k + 1, acc =>
      let n := (smallSigma1 (acc.getD 1 0) + acc.getD 6 0 +
        smallSigma0 (acc.getD 14 0) + acc.getD 15 0) % 4294967296
      scheduleAux k (n :: acc)

/-- The 64-word message schedule of one block. -/
def schedule (block : List Nat) : List Nat :=
  (scheduleAux 48 block.reverse).reverse

/-- One round of the SHA-256 compression function. -/
def compressStep (st : Nat × Nat × Nat × Nat × Nat × Nat × Nat × Nat)
    (kw : Nat × Nat) : Nat × Nat × Nat × Nat × Nat × Nat × Nat × Nat :=
  match st, kw with
  | (a, b, c, d, e, f, g, h), (k, w) =>
      let t1 := (h + bigSigma1 e + shaCh e f g + k + w) % 4294967296
      let t2 := (bigSigma0 a + shaMaj a b c) % 4294967296
      ((t1 + t2) % 4294967296, a, b, c, (d + t1) % 4294967296, e, f, g)

/-- Compress one 16-word block into the running hash. -/
def compressBlock (hs : List Nat) (block : List Nat) : List Nat :=
  let w := schedule block
  let st0 := (hs.getD 0 0, hs.getD 1 0, hs.getD 2 0, hs.getD 3 0,
    hs.getD 4 0, hs.getD 5 0, hs.getD 6 0, hs.getD 7 0)
  match (shaK.zip w).foldl compressStep st0 with
  | (a, b, c, d, e, f, g, h) =>
      [(hs.getD 0 0 + a) % 4294967296, (hs.getD 1 0 + b) % 4294967296,
       (hs.getD 2 0 + c) % 4294967296, (hs.getD 3 0 + d) % 4294967296,
       (hs.getD 4 0 + e) % 4294967296, (hs.getD 5 0 + f) % 4294967296,
       (hs.getD 6 0 + g) % 4294967296, (hs.getD 7 0 + h) % 4294967296]

/-- SHA-256 padding: `0x80`, zeros, 8-byte big-endian bit length. -/
def padMessage (msg : List Nat) : List Nat :=
  let bitlen := 8 * msg.length
  let zeros := (119 - msg.length % 64) % 64
  msg ++ [128] ++ List.replicate zeros 0 ++
    [(bitlen >>> 56) % 256, (bitlen >>> 48) % 256, (bitlen >>> 40) % 256,
     (bitlen >>> 32) % 256, (bitlen >>> 24) % 256, (bitlen >>> 16) % 256,
     (bitlen >>> 8) % 256, bitlen % 256]

/-- Big-endian bytes to 32-bit words. -/
def bytesToWords : List Nat → List Nat
  | b0 :: b1 :: b2 :: b3 :: rest =>
      (b0 * 16777216 + b1 * 65536 + b2 * 256 + b3) :: bytesToWords rest
  | _ => []

/-- Split a word list into 16-word blocks (fuelled for structural
recursion). -/
def chunkWordsAux : Nat → List Nat → List (List Nat)
  | 0, _ => []
  | _, [] => []
  | fuel + 1, w :: ws =>
      (w :: ws).take 16 :: chunkWordsAux fuel ((w :: ws).drop 16)

/-- Split a word list into 16-word blocks. -/
def chunkWords (ws : List Nat) : List (List Nat) := chunkWordsAux ws.length ws

/-- The eight 32-bit digest words of a byte message. -/
def sha256Words (msg : List Nat) : List Nat :=
  (chunkWords (bytesToWords (padMessage msg))).foldl compressBlock shaInit

/-- Lower-case hex digit. -/
def hexDigit (n : Nat) : Char :=
  if n < 10 then Char.ofNat (48 + n) else Char.ofNat (87 + n)

/-- Lower-case hex rendering of one 32-bit word. -/
def wordToHex (w : Nat) : List Char :=
  [hexDigit ((w >>> 28) % 16), hexDigit ((w >>> 24) % 16),
   hexDigit ((w >>> 20) % 16), hexDigit ((w >>> 16) % 16),
   hexDigit ((w >>> 12) % 16), hexDigit ((w >>> 8) % 16),
   hexDigit ((w >>> 4) % 16), hexDigit (w % 16)]

/-- The bytes of a string (character codes; equal to UTF-8 on ASCII). -/
def strBytes (s : String) : List Nat := s.data.map (·.toNat)

/-- `encode(sha256(s::bytea), 'hex')` / `hashlib.sha256(s).hexdigest()`:
the lower-case hex SHA-256 digest of a string. -/
def sha256Hex (s : String) : String :=
  String.mk ((sha256Words (strBytes s)).flatMap wordToHex)

/-! ## Customer dimension (`build_dimensions.py`, `dim_customer`) -/

/-- ASCII lower-casing of one character (SQL `LOWER` / Python `str.lower`
on the ASCII range). -/
def lowerChar (c : Char) : Char :=
  if 65 ≤ c.toNat ∧ c.toNat ≤ 90 then Char.ofNat (c.toNat + 32) else c

/-- SQL `LOWER(s)` / Python `s.lower()` (ASCII). -/
def strToLower (s : String) : String := String.mk (s.data.map lowerChar)

/-- Whitespace for `str.strip()`: space, `\t`, `\n`, `\v`, `\f`, `\r`. -/
def isWsChar (c : Char) : Bool :=
  c.toNat == 32 || c.toNat == 9 || c.toNat == 10 || c.toNat == 11 ||
    c.toNat == 12 || c.toNat == 13

/-- Python `s.strip()`: drop surrounding whitespace. -/
def strTrim (s : String) : String :=
  String.mk (((s.data.dropWhile isWsChar).reverse.dropWhile isWsChar).reverse)

/-- A row of `staging.stg_customers` (the columns the customer dimension
reads).  `customer_id` is non-null (staging filters `customer_id != ''`). -/
structure StgCustomer where
  customer_id : ℤ
  email : String
  city : String
  province : String
  country : String
  accepts_email_marketing : Bool
  accepts_sms_marketing : Bool
  deriving Repr, DecidableEq

/-- A row of `warehouse.dim_customer` (the columns the claims read;
`first_order_date` is omitted, dates play no role in any claim). -/
structure DimCustomer where
  customer_id_hash : String
  customer_id : Option ℤ
  city : Option String
  accepts_email_marketing : Bool
  accepts_sms_marketing : Bool
  total_orders : Nat
  total_spent : ℚ
  customer_segment : String
  deriving Repr, DecidableEq

/-- The `order_customers` CTE: the distinct non-empty order emails. -/
def orderCustomerEmails (orders : List StgOrder) : List String :=
  ((orders.filter (fun o => o.email != "")).map (·.email)).dedup

/-- The grouping keys of the `customer_stats` CTE: every distinct order
email (no non-empty filter there). -/
def statsEmails (orders : List StgOrder) : List String :=
  ((orders.map (·.email))).dedup

/-- `customer_stats.total_orders` for one exact email:
`COUNT(DISTINCT order_id)`. -/
def totalOrdersOf (orders : List StgOrder) (e : String) : Nat :=
  (((orders.filter (fun o => o.email == e)).map (·.order_id)).dedup).length

/-- `customer_stats.total_spent` for one exact email:
`SUM(subtotal - refunded_amount)`. -/
def totalSpentOf (orders : List StgOrder) (e : String) : Option ℚ :=
  sqlSum ((orders.filter (fun o => o.email == e)).map
    (fun o => o.subtotal.map (· - o.refunded_amount)))

/-- The segment `CASE`: `0 → 'prospect'`, `1 → 'new'`, `≥2 → 'returning'`,
else `'unknown'`. -/
def segmentOf (t : Nat) : String :=
  if t = 0 then "prospect"
  else if t = 1 then "new"
  else if 2 ≤ t then "returning"
  else "unknown"

/-- The `INSERT INTO warehouse.dim_customer` statement: distinct non-empty
order emails, left-joined (case-insensitively) to the customer export and to
the per-email order stats. -/
def buildDimCustomer (orders : List StgOrder) (custs : List StgCustomer) :
    List DimCustomer :=
  (leftJoin (leftJoin (orderCustomerEmails orders) custs
      (fun e c => strToLower e == strToLower c.email))
    (statsEmails orders) (fun p se => strToLower p.1 == strToLower se)).map
    fun t =>
      let tot : Nat := match t.2 with
        | some se => totalOrdersOf orders se
        | none => 0
      { customer_id_hash := sha256Hex (strToLower t.1.1)
      , customer_id := t.1.2.map (·.customer_id)
      , city := t.1.2.map (·.city)
      , accepts_email_marketing :=
          (t.1.2.map (·.accepts_email_marketing)).getD false
      , accepts_sms_marketing :=
          (t.1.2.map (·.accepts_sms_marketing)).getD false
      , total_orders := tot
      , total_spent := (t.2.bind (totalSpentOf orders)).getD 0
      , customer_segment := segmentOf tot }

/-- The order-fact customer-key resolution join (`build_facts.py`):
`ON encode(sha256(LOWER(o.email)::bytea), 'hex') = dc.customer_id_hash`. -/
def factCustomerLookup (o : StgOrder) (dim : List DimCustomer) :
    List DimCustomer :=
  dim.filter (fun dc => sha256Hex (strToLower o.email) == dc.customer_id_hash)

/-! ## Shipping-method dimension (`build_dimensions.py`,
`dim_shipping_method`) -/

/-- Does `s` start with `p` (as character lists)? -/
def startsWithChars : List Char → List Char → Bool
  | _, [] => true
  | [], _ :: _ => false
  | c :: cs, p :: ps => c == p && startsWithChars cs ps

/-- Does `s` contain `p` as a contiguous sublist? -/
def hasSubChars : List Char → List Char → Bool
  | [], p => p.isEmpty
  | c :: cs, p => startsWithChars (c :: cs) p || hasSubChars cs p

/-- SQL `s LIKE '%pat%'` / Python `pat in s`. -/
def containsSubstr (s pat : String) : Bool := hasSubChars s.data pat.data

/-- A row of `warehouse.dim_shipping_method`. -/
structure DimShippingMethod where
  shipping_method_code : String
  shipping_method_name : String
  is_local_delivery : Bool
  deriving Repr, DecidableEq

/-- The dimension row derived from one order's shipping method:
`LOWER(REPLACE(shipping_method, ' ', '_'))` as code, the raw name, and the
`LIKE '%local%'` flag. -/
def shippingRowOf (o : StgOrder) : DimShippingMethod :=
  { shipping_method_code := (o.shipping_method.replace " " "_").toLower
  , shipping_method_name := o.shipping_method
  , is_local_delivery := containsSubstr o.shipping_method.toLower "local" }

/-- The `('unknown', 'Unknown', false)` fallback row. -/
def unknownShippingRow : DimShippingMethod :=
  { shipping_method_code := "unknown", shipping_method_name := "Unknown"
  , is_local_delivery := false }

/-- The `INSERT INTO warehouse.dim_shipping_method` statement: the distinct
rows of the non-empty shipping methods, `UNION` the fallback row guarded by
`NOT EXISTS (...)`. -/
def buildDimShippingMethod (orders : List StgOrder) :
    List DimShippingMethod :=
  (((orders.filter (fun o => o.shipping_method != "")).map shippingRowOf) ++
    (if orders.all (fun o => o.shipping_method == "") then [unknownShippingRow]
     else [])).dedup

/-! ## Schema initialization (`run_all.py`, `init_database`)

The per-statement loop executes each schema statement inside
`try/except`: on failure it rolls the transaction back, logs a warning
when the message does not contain `"already exists"` (case-insensitively),
and in every case continues with the next statement — the `except` block
contains no re-raise.  The `Except` result type keeps the propagation path
expressible: `.error` would be an exception escaping the loop. -/

/-- The outcome the database reports for one executed schema statement. -/
inductive StmtOutcome where
  | ok
  | err (msg : String)
  deriving Repr, DecidableEq

/-- `'already exists' in str(e).lower()`. -/
def alreadyExistsIn (msg : String) : Bool :=
  containsSubstr (strToLower msg) "already exists"

/-- The statement loop of `init_database`, accumulating logged warnings.
An `.error` result would model an exception escaping the loop. -/
def initStatements : List StmtOutcome → List String →
    Except String (List String)
  | [], ws => .ok ws
  | .ok :: rest, ws => initStatements rest ws
  | .err m :: rest, ws =>
      if alreadyExistsIn m then initStatements rest ws
      else initStatements rest (ws ++ [m])

/-- `init_database` over the statement outcomes of the schema files. -/
def initDatabase (stmts : List StmtOutcome) : Except String (List String) :=
  initStatements stmts []

/-- The exit status `main` produces from the schema-init stage: `sys.exit(1)`
fires only when an exception propagates out of the stage. -/
def initExitCode (stmts : List StmtOutcome) : Nat :=
  match initDatabase stmts with
  | .ok _ => 0
  | .error _ => 1

/-! ## Staged order-line numbering (`build_staging.py`,
`stg_order_lines`)

`ROW_NUMBER() OVER (PARTITION BY id ORDER BY lineitem_name)` over the raw
rows whose `id` and `lineitem_name` are nonblank.  `ORDER BY
lineitem_name` fixes no order among rows with equal names, so ties are
numbered here in presentation order — the number of a row is one plus the
count of same-order rows with a smaller name plus the count of earlier
same-order rows with an equal name. -/

/-- A raw `orders.csv` row as read for the order-line build (nonblank-id
rows only; the columns the numbering touches). -/
structure RawLineRow where
  order_id : Nat
  lineitem_name : String
  lineitem_quantity : ℤ
  deriving Repr, DecidableEq

/-- A row of `staging.stg_order_lines` as produced by the numbering. -/
structure StagedLine where
  order_id : Nat
  line_number : Nat
  lineitem_name : String
  lineitem_quantity : ℤ
  deriving Repr, DecidableEq

/-- Lexicographic order on character lists (text `ORDER BY` under byte
collation, as it compares ASCII item names). -/
def charListLt : List Char → List Char → Bool
  | [], [] => false
  | [], _ :: _ => true
  | _ :: _, [] => false
  | c :: cs, d :: ds =>
      c.toNat < d.toNat || (c.toNat == d.toNat && charListLt cs ds)

/-- `a < b` on strings for `ORDER BY lineitem_name`. -/
def strLt (a b : String) : Bool := charListLt a.data b.data

/-- `ROW_NUMBER` of `r`: `all` is the full filtered row set, `prev` the
rows presented before `r`. -/
def lineNumberOf (all prev : List RawLineRow) (r : RawLineRow) : Nat :=
  1 + (all.countP (fun y => y.order_id == r.order_id &&
        strLt y.lineitem_name r.lineitem_name))
    + (prev.countP (fun y => y.order_id == r.order_id &&
        y.lineitem_name == r.lineitem_name))

/-- Number the filtered rows in presentation order. -/
def numberStagedAux (all : List RawLineRow) :
    List RawLineRow → List RawLineRow → List StagedLine
  | _, [] => []
  | prev, r :: rest =>
      { order_id := r.order_id
      , line_number := lineNumberOf all prev r
      , lineitem_name := r.lineitem_name
      , lineitem_quantity := r.lineitem_quantity } ::
        numberStagedAux all (r :: prev) rest

/-- The `INSERT INTO staging.stg_order_lines` statement: keep rows with a
nonblank item name and assign `line_number` per order by item name. -/
def buildStgOrderLines (rows : List RawLineRow) : List StagedLine :=
  let f := rows.filter (fun r => r.lineitem_name != "")
  numberStagedAux f [] f

/-- The staged line produced for `r` when no other kept row of its order
shares its name: the number is determined by the row set alone. -/
def stagedRowAt (all : List RawLineRow) (r : RawLineRow) : StagedLine :=
  { order_id := r.order_id
  , line_number := 1 + all.countP (fun y => y.order_id == r.order_id &&
      strLt y.lineitem_name r.lineitem_name)
  , lineitem_name := r.lineitem_name
  , lineitem_quantity := r.lineitem_quantity }

/-! ## Demo data used by the concrete witnesses -/

/-- Concrete demo order used by several witnesses: subtotal `20`, order
discount `2`, two `10 × 1` lines (the end-to-end scenario of the spec). -/
def demoOrder : StgOrder :=
  { order_id := 1, email := "a@b.com", subtotal := some 20
  , discount_amount := 2, refunded_amount := 0
  , shipping_method := "Standard Shipping", source := "web" }

/-- First demo line: `Oud 50ml`, quantity `1`, price `10`. -/
def demoLine1 : StgOrderLine :=
  { order_id := 1, line_number := 1, lineitem_name := "Oud 50ml"
  , lineitem_quantity := 1, lineitem_price := some 10, lineitem_discount := 0 }

/-- Second demo line: `Rose 50ml`, quantity `1`, price `10`.  It has no
SKU-map entry, so it resolves no product key. -/
def demoLine2 : StgOrderLine :=
  { order_id := 1, line_number := 2, lineitem_name := "Rose 50ml"
  , lineitem_quantity := 1, lineitem_price := some 10, lineitem_discount := 0 }

/-- The `line_with_allocation` row the pipeline produces for `demoLine1`:
order gross `20`, so the allocated order discount is `10 / 20 × 2 = 1`. -/
def demoAlloc1 : LineAlloc :=
  { order_id := 1, line_number := 1, lineitem_name := "Oud 50ml"
  , quantity := 1, unit_price := some 10, gross_line_revenue := some 10
  , line_discount := 0, order_discount_amount := 2
  , gross_product_sales := some 20, allocated_order_discount := some 1 }

/-- An order whose email carries leading whitespace and an upper-case
letter. -/
def demoWsOrder : StgOrder :=
  { order_id := 9, email := " A@b.com", subtotal := some 10
  , discount_amount := 0, refunded_amount := 0
  , shipping_method := "", source := "web" }

/-- An order (id `7`) that has no order lines at all. -/
def demoLonelyOrder : StgOrder :=
  { order_id := 7, email := "c@d.com", subtotal := some 15
  , discount_amount := 3, refunded_amount := 0
  , shipping_method := "", source := "web" }

/-- Demo SKU map: only `Oud 50ml` is mapped. -/
def demoSkuMap : List SkuMapRow :=
  [{ internal_sku := "OUD-50", lineitem_name := "Oud 50ml"
   , product_handle := "oud", size_ml := some 50, recipe_id := "R1"
   , product_category := "perfume", is_active := true }]

/-- Demo staged products (metadata for the `oud` handle). -/
def demoProducts : List StgProduct :=
  [{ handle := "oud", vendor := "Akhdar", variant_price := some 12 }]

/-- The product-dimension row built from the demo SKU map. -/
def demoDp : DimProduct :=
  { product_key := 0, internal_sku := "OUD-50", product_title := "Oud 50ml"
  , size_ml := some 50, recipe_id := "R1", vendor := "Akhdar"
  , variant_price := 12 }

/-- Demo recipe `R1` at batch size 50, `'final'` variant: 5 ml of oud oil
plus one bottle. -/
def demoRecipes : List StgRecipe :=
  [{ recipe_id := "R1", variant := "final", batch_size_ml := some 50
   , ingredient_match := "oud oil", amount_ml := some 5, material_id := "M1" },
   { recipe_id := "R1", variant := "final", batch_size_ml := some 50
   , ingredient_match := "bottle", amount_ml := none, material_id := "M2" }]

/-- Demo materials: oud oil costed at `1/2` per ml, bottle with unknown
cost. -/
def demoMaterials : List DimMaterial :=
  [{ material_id := "M1", cost_per_unit := none, cost_per_ml := some (1/2)
   , has_known_cost := true },
   { material_id := "M2", cost_per_unit := some 1, cost_per_ml := none
   , has_known_cost := false }]

/-- The inserted `fact_order_line` row for `demoLine1`. -/
def demoPre1 : FactOrderLine :=
  { order_line_key := 0, order_id := 1, line_number := 1
  , product_key := some 0, quantity := 1, unit_price := some 10
  , gross_line_revenue := some 10, line_discount := 0
  , allocated_order_discount := some 1, net_line_revenue := some 9 }

/-- The inserted `fact_order_line` row for `demoLine2` (no product key). -/
def demoPre2 : FactOrderLine :=
  { order_line_key := 1, order_id := 1, line_number := 2
  , product_key := none, quantity := 1, unit_price := some 10
  , gross_line_revenue := some 10, line_discount := 0
  , allocated_order_discount := some 1, net_line_revenue := some 9 }

/-- The COGS-estimate row for the oud-oil ingredient: `5 × 1/2 = 5/2`. -/
def demoCogs1 : CogsEstimate :=
  { order_line_key := 0, ingredient_name := "oud oil", amount_ml := some 5
  , line_cost := some (5/2), has_known_cost := true }

/-- The COGS-estimate row for the bottle: cost unknown, `line_cost = 0`. -/
def demoCogs2 : CogsEstimate :=
  { order_line_key := 0, ingredient_name := "bottle", amount_ml := none
  , line_cost := some 0, has_known_cost := false }

/-- The final fact row for `demoLine1`: COGS `5/2`, missing-cost flagged
via the bottle, margin `9 - 5/2 = 13/2`, margin percent `650/9`. -/
def demoFol1 : FactOrderLineF :=
  { order_line_key := 0, order_id := 1, line_number := 1
  , product_key := some 0, quantity := 1, unit_price := some 10
  , gross_line_revenue := some 10, line_discount := 0
  , allocated_order_discount := some 1, net_line_revenue := some 9
  , estimated_cogs := 5/2, has_missing_cost := true
  , gross_margin := some (13/2), margin_percent := some (650/9) }

/-- The final fact row for `demoLine2`: the no-recipe defaults. -/
def demoFol2 : FactOrderLineF :=
  { order_line_key := 1, order_id := 1, line_number := 2
  , product_key := none, quantity := 1, unit_price := some 10
  , gross_line_revenue := some 10, line_discount := 0
  , allocated_order_discount := some 1, net_line_revenue := some 9
  , estimated_cogs := 0, has_missing_cost := true
  , gross_margin := some 9, margin_percent := some 100 }

/-! ## Structural lemmas about the order-line fact build -/

/-- `(sqlSum xs).getD 0` adds up the non-null entries, i.e. it treats each
`NULL` item as `0`. -/
theorem sqlSum_getD (xs : List (Option ℚ)) :
    (sqlSum xs).getD 0 = (xs.map (fun x => x.getD 0)).sum := by
  induction xs with
  | nil => simp [sqlSum]
  | cons x xs ih =>
    cases x with
    | none =>
      simp only [sqlSum, List.filterMap_cons_none] at *
      simpa [sqlSum] using ih
    | some v =>
      simp only [sqlSum, List.filterMap_cons_some, List.map_cons, List.sum_cons,
        Option.getD_some, List.sum_cons] at *
      rw [← ih]
      cases h : xs.filterMap id with
      | nil => simp [sqlSum, h]
      | cons y ys => simp [sqlSum, h]

theorem numberLines_key_ge (k : Nat)
    (ts : List ((LineAlloc × Option SkuMapRow) × Option DimProduct))
    (f : FactOrderLine) (hf : f ∈ numberLines k ts) : k ≤ f.order_line_key := by
  induction ts generalizing k with
  | nil => simp [numberLines] at hf
  | cons t ts ih =>
    simp only [numberLines, List.mem_cons] at hf
    rcases hf with hf | hf
    · subst hf; exact le_refl _
    · exact Nat.le_of_succ_le (ih (k + 1) hf)

/-- The serial keys assigned by `numberLines` are pairwise distinct. -/
theorem numberLines_pairwise (k : Nat)
    (ts : List ((LineAlloc × Option SkuMapRow) × Option DimProduct)) :
    (numberLines k ts).Pairwise
      (fun a b => a.order_line_key ≠ b.order_line_key) := by
  induction ts generalizing k with
  | nil => simp [numberLines]
  | cons t ts ih =>
    simp only [numberLines]
    refine List.Pairwise.cons ?_ (ih (k + 1))
    intro b hb
    have := numberLines_key_ge (k + 1) ts b hb
    simp only [mkFactOrderLine]
    omega

/-- Every COGS-estimate row generated by a line carries that line's key. -/
theorem cogsRowsFor_key (dps : List DimProduct) (recipes : List StgRecipe)
    (materials : List DimMaterial) (fol : FactOrderLine) (c : CogsEstimate)
    (hc : c ∈ cogsRowsFor dps recipes materials fol) :
    c.order_line_key = fol.order_line_key := by
  unfold cogsRowsFor at hc
  cases h : fol.product_key with
  | none => rw [h] at hc; simp at hc
  | some pk =>
    rw [h] at hc
    simp only [List.mem_flatMap] at hc
    obtain ⟨dp, _, r, _, hr⟩ := hc
    cases hm : materials.filter (fun dm => dm.material_id == r.material_id) with
    | nil =>
      rw [hm] at hr
      simp only [List.mem_singleton] at hr
      subst hr; rfl
    | cons m ms =>
      rw [hm] at hr
      simp only [List.mem_map] at hr
      obtain ⟨dm, _, hdm⟩ := hr
      subst hdm; rfl

theorem mem_buildCogsEstimates (fols : List FactOrderLine)
    (dps : List DimProduct) (recipes : List StgRecipe)
    (materials : List DimMaterial) (c : CogsEstimate)
    (hc : c ∈ buildCogsEstimates fols dps recipes materials) :
    ∃ fol ∈ fols, c.order_line_key = fol.order_line_key := by
  simp only [buildCogsEstimates, List.mem_flatMap] at hc
  obtain ⟨fol, hfol, hc⟩ := hc
  exact ⟨fol, hfol, cogsRowsFor_key dps recipes materials fol c hc⟩

/-- Filtering the whole `fact_cogs_estimate` table by one line's key (the
`cogs_summary` group of that line) recovers exactly the rows that line
generated, provided line keys are pairwise distinct. -/
theorem filter_buildCogsEstimates (fols : List FactOrderLine)
    (dps : List DimProduct) (recipes : List StgRecipe)
    (materials : List DimMaterial) (fol : FactOrderLine)
    (hdist : fols.Pairwise (fun a b => a.order_line_key ≠ b.order_line_key))
    (hmem : fol ∈ fols) :
    (buildCogsEstimates fols dps recipes materials).filter
        (fun c => c.order_line_key == fol.order_line_key) =
      cogsRowsFor dps recipes materials fol := by
  induction fols with
  | nil => simp at hmem
  | cons x xs ih =>
    have hx := (List.pairwise_cons.mp hdist).1
    have hxs := (List.pairwise_cons.mp hdist).2
    simp only [buildCogsEstimates, List.flatMap_cons, List.filter_append]
      at ih ⊢
    rcases List.mem_cons.mp hmem with hfx | hfm
    · subst hfx
      have h1 : (cogsRowsFor dps recipes materials fol).filter
          (fun c => c.order_line_key == fol.order_line_key) =
          cogsRowsFor dps recipes materials fol := by
        apply List.filter_eq_self.mpr
        intro c hc
        simp [cogsRowsFor_key dps recipes materials fol c hc]
      have h2 : (buildCogsEstimates xs dps recipes materials).filter
          (fun c => c.order_line_key == fol.order_line_key) = [] := by
        apply List.filter_eq_nil_iff.mpr
        intro c hc
        obtain ⟨y, hy, hcy⟩ :=
          mem_buildCogsEstimates xs dps recipes materials c hc
        simp only [beq_iff_eq, hcy]
        exact fun h => hx y hy h.symm
        -- hx : ∀ b ∈ xs, fol.key ≠ b.key ; hcy : c.key = y.key
      rw [h1]
      unfold buildCogsEstimates at h2
      rw [h2, List.append_nil]
    · have h1 : (cogsRowsFor dps recipes materials x).filter
          (fun c => c.order_line_key == fol.order_line_key) = [] := by
        apply List.filter_eq_nil_iff.mpr
        intro c hc
        have := cogsRowsFor_key dps recipes materials x c hc
        simp only [beq_iff_eq, this]
        exact fun h => hx fol hfm h
      rw [h1, List.nil_append]
      exact ih hxs hfm

/-- The two `UPDATE`s never change a row's key. -/
theorem applyCogsUpdate_key (cogs : List CogsEstimate) (fol : FactOrderLine) :
    (applyCogsUpdate cogs fol).order_line_key = fol.order_line_key := by
  unfold applyCogsUpdate
  by_cases h : (cogs.filter
      (fun c => c.order_line_key == fol.order_line_key)).isEmpty <;>
    simp [h]

/-- The two `UPDATE`s never change a row's quantity. -/
theorem applyCogsUpdate_quantity (cogs : List CogsEstimate)
    (fol : FactOrderLine) :
    (applyCogsUpdate cogs fol).quantity = fol.quantity := by
  unfold applyCogsUpdate
  by_cases h : (cogs.filter
      (fun c => c.order_line_key == fol.order_line_key)).isEmpty <;>
    simp [h]

/-- The two `UPDATE`s never change a row's net line revenue. -/
theorem applyCogsUpdate_net (cogs : List CogsEstimate)
    (fol : FactOrderLine) :
    (applyCogsUpdate cogs fol).net_line_revenue = fol.net_line_revenue := by
  unfold applyCogsUpdate
  by_cases h : (cogs.filter
      (fun c => c.order_line_key == fol.order_line_key)).isEmpty <;>
    simp [h]

/-- Decomposition of a final `fact_order_line` row: it is the update of some
inserted row, and its `cogs_summary` group is the set of COGS rows that
inserted row generated. -/
theorem mem_buildFactOrderLineFinal (orders : List StgOrder)
    (lines : List StgOrderLine) (skm : List SkuMapRow)
    (prods : List StgProduct) (recipes : List StgRecipe)
    (materials : List DimMaterial) (fol : FactOrderLineF)
    (hf : fol ∈ buildFactOrderLineFinal orders lines skm prods recipes
      materials) :
    ∃ p ∈ buildFactOrderLinePre orders lines skm (buildDimProduct skm prods),
      fol = applyCogsUpdate
          (buildCogsEstimates
            (buildFactOrderLinePre orders lines skm (buildDimProduct skm prods))
            (buildDimProduct skm prods) recipes materials) p ∧
        (buildCogsEstimates
            (buildFactOrderLinePre orders lines skm (buildDimProduct skm prods))
            (buildDimProduct skm prods) recipes materials).filter
          (fun c => c.order_line_key == p.order_line_key) =
          cogsRowsFor (buildDimProduct skm prods) recipes materials p := by
  simp only [buildFactOrderLineFinal, List.mem_map] at hf
  obtain ⟨p, hp, hfol⟩ := hf
  refine ⟨p, hp, hfol.symm, ?_⟩
  exact filter_buildCogsEstimates _ _ _ _ p
    (by unfold buildFactOrderLinePre; exact numberLines_pairwise 0 _) hp

/-! ## Evaluation of the pipeline on the demo data -/

theorem demoDp_eval :
    buildDimProduct demoSkuMap demoProducts = [demoDp] := by
  norm_num [buildDimProduct, numberProducts, leftJoin, demoSkuMap,
    demoProducts, demoDp]

theorem demoPre_eval :
    buildFactOrderLinePre [demoOrder] [demoLine1, demoLine2] demoSkuMap
      [demoDp] = [demoPre1, demoPre2] := by
  norm_num [buildFactOrderLinePre, numberLines, mkFactOrderLine,
    factOrderLineJoin, leftJoin, buildLineAlloc, buildFactOrder,
    orderLineSummary, orderLinesOf, sqlSum, allocatedOrderDiscount,
    List.filterMap_cons, Option.map_some', demoOrder, demoLine1, demoLine2,
    demoSkuMap, demoDp, demoPre1, demoPre2]

theorem demoCogs_eval :
    buildCogsEstimates [demoPre1, demoPre2] [demoDp] demoRecipes
      demoMaterials = [demoCogs1, demoCogs2] := by
  simp only [buildCogsEstimates, cogsRowsFor, recipeMatches, sqlEqInt,
    lineCost, List.flatMap_cons, List.flatMap_nil, List.filter_cons,
    List.filter_nil, List.map_cons, List.map_nil, List.append_nil,
    List.nil_append, List.cons_append, Option.map_some', Option.map_none',
    beq_iff_eq, demoPre1, demoPre2, demoDp, demoRecipes, demoMaterials,
    demoCogs1, demoCogs2]
  simp
  norm_num

theorem demoFinal_eval :
    buildFactOrderLineFinal [demoOrder] [demoLine1, demoLine2] demoSkuMap
      demoProducts demoRecipes demoMaterials = [demoFol1, demoFol2] := by
  unfold buildFactOrderLineFinal
  dsimp only
  rw [demoDp_eval, demoPre_eval, demoCogs_eval]
  norm_num [applyCogsUpdate, sqlSum, List.filterMap_cons, demoPre1, demoPre2,
    demoCogs1, demoCogs2, demoFol1, demoFol2]

end AkhdarBI

namespace AkhdarBI

/-- C2: for every order line with at least one per-ingredient COGS estimate
row, `has_missing_cost` is true iff some contributing ingredient has an
unknown cost, and `estimated_cogs` is the sum of the ingredients' line
costs. -/
theorem cogs_rollup_rule (orders : List StgOrder) (lines : List StgOrderLine)
    (skm : List SkuMapRow) (prods : List StgProduct)
    (recipes : List StgRecipe) (materials : List DimMaterial)
    (fol : FactOrderLineF)
    (hf : fol ∈ buildFactOrderLineFinal orders lines skm prods recipes
      materials)
    (rows : List CogsEstimate)
    (hrows : rows = (buildCogsEstimates
        (buildFactOrderLinePre orders lines skm (buildDimProduct skm prods))
        (buildDimProduct skm prods) recipes materials).filter
      (fun c => c.order_line_key == fol.order_line_key))
    (hne : rows ≠ []) :
    (fol.has_missing_cost = true ↔ ∃ c ∈ rows, c.has_known_cost = false) ∧
      fol.estimated_cogs = (rows.map (fun c => c.line_cost.getD 0)).sum := by
  obtain ⟨p, hp, hfol, hfilter⟩ :=
    mem_buildFactOrderLineFinal orders lines skm prods recipes materials fol hf
  have hkey : fol.order_line_key = p.order_line_key := by
    rw [hfol, applyCogsUpdate_key]
  rw [hkey, hfilter] at hrows
  rw [hfol]
  unfold applyCogsUpdate
  rw [hfilter, ← hrows]
  have hie : rows.isEmpty = false := by
    cases rows with
    | nil => exact absurd rfl hne
    | cons a l => rfl
  simp only [hie, Bool.false_eq_true, if_false]
  constructor
  · simp only [List.any_eq_true, Bool.not_eq_true']
  · rw [sqlSum_getD, List.map_map]
    rfl

/-- Witness for C2: `cogs_rollup_rule` on the demo data, where the bottle's
unknown cost flags the line and the oud oil contributes `5/2`. -/
theorem cogs_rollup_rule_witness :
    (demoFol1.has_missing_cost = true ↔
      ∃ c ∈ [demoCogs1, demoCogs2], c.has_known_cost = false) ∧
      demoFol1.estimated_cogs =
        ([demoCogs1, demoCogs2].map (fun c => c.line_cost.getD 0)).sum :=
  cogs_rollup_rule [demoOrder] [demoLine1, demoLine2] demoSkuMap demoProducts
    demoRecipes demoMaterials demoFol1
    (by rw [demoFinal_eval]; exact List.mem_cons_self _ _)
    [demoCogs1, demoCogs2]
    (by rw [demoDp_eval, demoPre_eval, demoCogs_eval]
        simp [demoCogs1, demoCogs2, demoFol1])
    (by simp)

/-- C3: for every order line with at least one COGS estimate row and a
nonzero quantity, the gross margin is per-unit net revenue minus estimated
COGS, and the margin percent is margin over per-unit net revenue times 100
when net revenue is positive, else 0. -/
theorem margin_rule (orders : List StgOrder) (lines : List StgOrderLine)
    (skm : List SkuMapRow) (prods : List StgProduct)
    (recipes : List StgRecipe) (materials : List DimMaterial)
    (fol : FactOrderLineF)
    (hf : fol ∈ buildFactOrderLineFinal orders lines skm prods recipes
      materials)
    (rows : List CogsEstimate)
    (hrows : rows = (buildCogsEstimates
        (buildFactOrderLinePre orders lines skm (buildDimProduct skm prods))
        (buildDimProduct skm prods) recipes materials).filter
      (fun c => c.order_line_key == fol.order_line_key))
    (hne : rows ≠ []) (hq : fol.quantity ≠ 0) (n : ℚ)
    (hn : fol.net_line_revenue = some n) :
    fol.gross_margin =
      some (n / (fol.quantity : ℚ) - fol.estimated_cogs) ∧
    (0 < n → fol.margin_percent =
      some ((n / (fol.quantity : ℚ) - fol.estimated_cogs) /
        (n / (fol.quantity : ℚ)) * 100)) ∧
    (n ≤ 0 → fol.margin_percent = some 0) := by
  obtain ⟨p, hp, hfol, hfilter⟩ :=
    mem_buildFactOrderLineFinal orders lines skm prods recipes materials fol hf
  have hkey : fol.order_line_key = p.order_line_key := by
    rw [hfol, applyCogsUpdate_key]
  rw [hkey, hfilter] at hrows
  have hqp : p.quantity ≠ 0 := by
    rwa [hfol, applyCogsUpdate_quantity] at hq
  have hnp : p.net_line_revenue = some n := by
    rwa [hfol, applyCogsUpdate_net] at hn
  have hie : rows.isEmpty = false := by
    cases rows with
    | nil => exact absurd rfl hne
    | cons a l => rfl
  rw [hfol]
  unfold applyCogsUpdate
  rw [hfilter, ← hrows]
  simp only [hie, Bool.false_eq_true, if_false]
  rw [if_neg hqp, hnp]
  refine ⟨by simp, fun h0 => ?_, fun hle => ?_⟩
  · dsimp only
    rw [if_pos h0]
    simp
  · dsimp only
    rw [if_neg (not_lt.mpr hle)]

/-- Witness for C3: `margin_rule` on the demo data (`net 9`, `quantity 1`,
`COGS 5/2`). -/
theorem margin_rule_witness :
    demoFol1.gross_margin =
      some (9 / (demoFol1.quantity : ℚ) - demoFol1.estimated_cogs) ∧
    ((0 : ℚ) < 9 → demoFol1.margin_percent =
      some ((9 / (demoFol1.quantity : ℚ) - demoFol1.estimated_cogs) /
        (9 / (demoFol1.quantity : ℚ)) * 100)) ∧
    ((9 : ℚ) ≤ 0 → demoFol1.margin_percent = some 0) :=
  margin_rule [demoOrder] [demoLine1, demoLine2] demoSkuMap demoProducts
    demoRecipes demoMaterials demoFol1
    (by rw [demoFinal_eval]; exact List.mem_cons_self _ _)
    [demoCogs1, demoCogs2]
    (by rw [demoDp_eval, demoPre_eval, demoCogs_eval]
        simp [demoCogs1, demoCogs2, demoFol1])
    (by simp) (by decide) 9 rfl

/-- C4: an inserted order-line row that matched no recipe entry at all — no
resolved product key, or no recipe row matching its product's recipe id,
batch size and the `'final'` variant — ends the build with
`estimated_cogs = 0`, `has_missing_cost = true` and `margin_percent = 100`. -/
theorem cogs_default_rule (orders : List StgOrder) (lines : List StgOrderLine)
    (skm : List SkuMapRow) (prods : List StgProduct)
    (recipes : List StgRecipe) (materials : List DimMaterial)
    (p : FactOrderLine)
    (hp : p ∈ buildFactOrderLinePre orders lines skm (buildDimProduct skm prods))
    (hnone : p.product_key = none ∨
      ∀ dp ∈ buildDimProduct skm prods, p.product_key = some dp.product_key →
        ∀ r ∈ recipes, recipeMatches dp r = false) :
    ∃ fol ∈ buildFactOrderLineFinal orders lines skm prods recipes materials,
      fol.order_line_key = p.order_line_key ∧ fol.estimated_cogs = 0 ∧
      fol.has_missing_cost = true ∧ fol.margin_percent = some 100 := by
  have hempty :
      cogsRowsFor (buildDimProduct skm prods) recipes materials p = [] := by
    unfold cogsRowsFor
    cases hpk : p.product_key with
    | none => rfl
    | some pk =>
      rcases hnone with hnone | hnone
      · rw [hnone] at hpk; cases hpk
      apply List.flatMap_eq_nil_iff.mpr
      intro dp hdp
      have hdpm := List.mem_filter.mp hdp
      have hkey : p.product_key = some dp.product_key := by
        rw [hpk]
        have := beq_iff_eq.mp hdpm.2
        rw [this]
      have hrec : recipes.filter (recipeMatches dp) = [] :=
        List.filter_eq_nil_iff.mpr
          (fun r hr => by
            simp [hnone dp hdpm.1 hkey r hr])
      rw [hrec]
      rfl
  have hfilter :
      (buildCogsEstimates
          (buildFactOrderLinePre orders lines skm (buildDimProduct skm prods))
          (buildDimProduct skm prods) recipes materials).filter
        (fun c => c.order_line_key == p.order_line_key) =
        cogsRowsFor (buildDimProduct skm prods) recipes materials p :=
    filter_buildCogsEstimates _ _ _ _ p
      (by unfold buildFactOrderLinePre; exact numberLines_pairwise 0 _) hp
  refine ⟨applyCogsUpdate
      (buildCogsEstimates
        (buildFactOrderLinePre orders lines skm (buildDimProduct skm prods))
        (buildDimProduct skm prods) recipes materials) p,
    List.mem_map_of_mem _ hp, applyCogsUpdate_key _ _, ?_⟩
  unfold applyCogsUpdate
  rw [hfilter, hempty]
  simp

/-- Witness for C4: `cogs_default_rule` on the demo line with no SKU-map
match (`Rose 50ml`, no product key). -/
theorem cogs_default_rule_witness :
    ∃ fol ∈ buildFactOrderLineFinal [demoOrder] [demoLine1, demoLine2]
        demoSkuMap demoProducts demoRecipes demoMaterials,
      fol.order_line_key = demoPre2.order_line_key ∧ fol.estimated_cogs = 0 ∧
      fol.has_missing_cost = true ∧ fol.margin_percent = some 100 :=
  cogs_default_rule [demoOrder] [demoLine1, demoLine2] demoSkuMap demoProducts
    demoRecipes demoMaterials demoPre2
    (by rw [demoDp_eval, demoPre_eval]; simp)
    (Or.inl rfl)

end AkhdarBI

namespace AkhdarBI

/-- C1: the allocation rule on every produced `line_with_allocation` row:
proportional when the order gross is strictly positive, `0` when it is zero
or negative (and also when it is `NULL`). -/
theorem allocation_rule (orders : List StgOrder) (lines : List StgOrderLine)
    (la : LineAlloc) (hla : la ∈ buildLineAlloc orders lines) :
    (∀ g, la.gross_product_sales = some g →
        (0 < g → la.allocated_order_discount =
          la.gross_line_revenue.map (fun r => r / g * la.order_discount_amount))
        ∧ (g ≤ 0 → la.allocated_order_discount = some 0))
    ∧ (la.gross_product_sales = none →
        la.allocated_order_discount = some 0) := by
  simp only [buildLineAlloc, List.mem_flatMap, List.mem_filterMap] at hla
  obtain ⟨l, _, fo, _, hmk⟩ := hla
  by_cases h : l.order_id == fo.order_id
  · simp only [h, if_pos, Option.some.injEq] at hmk
    subst hmk
    dsimp only
    constructor
    · intro g hg
      simp only [allocatedOrderDiscount, hg]
      constructor
      · intro hpos
        simp only [if_pos hpos]
        cases l.lineitem_price with
        | none => rfl
        | some p =>
          simp only [Option.map_some']
      · intro hle
        rw [if_neg (not_lt.mpr hle)]
    · intro hg
      simp only [allocatedOrderDiscount, hg]
  · simp [h] at hmk

/-- Witness for C1: `allocation_rule` applied to the demo order. -/
theorem allocation_rule_witness :
    demoAlloc1.allocated_order_discount =
      demoAlloc1.gross_line_revenue.map
        (fun r => r / 20 * demoAlloc1.order_discount_amount) :=
  ((allocation_rule [demoOrder] [demoLine1, demoLine2] demoAlloc1
      (by norm_num [buildLineAlloc, buildFactOrder, orderLineSummary,
        orderLinesOf, sqlSum, allocatedOrderDiscount, List.filterMap_cons,
        Option.map_some', demoOrder, demoLine1, demoLine2, demoAlloc1])).1
    20 rfl).1 (by norm_num)

/-- C10: a staged order with no staged order lines still produces a fact row,
with `line_item_count = 1`, `unit_count = 1` and `gross_product_sales` falling
back to `subtotal + discount_amount`. -/
theorem fact_order_no_lines (orders : List StgOrder)
    (lines : List StgOrderLine) (o : StgOrder) (ho : o ∈ orders)
    (hno : orderLinesOf lines o.order_id = []) :
    ∃ fo ∈ buildFactOrder orders lines,
      fo.order_id = o.order_id ∧ fo.line_item_count = 1 ∧ fo.unit_count = 1 ∧
      fo.gross_product_sales = o.subtotal.map (· + o.discount_amount) := by
  refine ⟨_, List.mem_map_of_mem _ ho, ?_⟩
  have hs : orderLineSummary lines o.order_id = none := by
    unfold orderLineSummary
    rw [hno]
  simp only [hs, Option.none_bind]
  cases o.subtotal <;> simp

/-- Witness for C10: `fact_order_no_lines` on an order with no lines. -/
theorem fact_order_no_lines_witness :
    ∃ fo ∈ buildFactOrder [demoOrder, demoLonelyOrder] [demoLine1, demoLine2],
      fo.order_id = demoLonelyOrder.order_id ∧ fo.line_item_count = 1 ∧
      fo.unit_count = 1 ∧
      fo.gross_product_sales =
        demoLonelyOrder.subtotal.map (· + demoLonelyOrder.discount_amount) :=
  fact_order_no_lines [demoOrder, demoLonelyOrder] [demoLine1, demoLine2]
    demoLonelyOrder (by simp) (by decide)

/-! ## Dimension-builder theorems -/

/-- Inversion for `leftJoin`: a produced pair has its left part in `xs`, and
either carries `none` with no matching right row, or carries a matching
right row. -/
theorem mem_leftJoin {α β : Type} (xs : List α) (ys : List β)
    (p : α → β → Bool) (t : α × Option β) (ht : t ∈ leftJoin xs ys p) :
    t.1 ∈ xs ∧ ((t.2 = none ∧ ys.filter (p t.1) = []) ∨
      (∃ y, t.2 = some y ∧ y ∈ ys ∧ p t.1 y = true)) := by
  simp only [leftJoin, List.mem_flatMap] at ht
  obtain ⟨x, hx, hmem⟩ := ht
  cases hfil : ys.filter (p x) with
  | nil =>
    rw [hfil] at hmem
    simp only [List.mem_singleton] at hmem
    subst hmem
    exact ⟨hx, Or.inl ⟨rfl, hfil⟩⟩
  | cons m ms =>
    rw [hfil] at hmem
    simp only [List.mem_map] at hmem
    obtain ⟨y, hy, hty⟩ := hmem
    have hy2 : y ∈ ys.filter (p x) := by rw [hfil]; exact hy
    subst hty
    exact ⟨hx, Or.inr ⟨y, rfl, (List.mem_filter.mp hy2).1,
      (List.mem_filter.mp hy2).2⟩⟩

theorem mem_orderCustomerEmails (orders : List StgOrder) (e : String) :
    e ∈ orderCustomerEmails orders ↔
      e ≠ "" ∧ ∃ o ∈ orders, o.email = e := by
  simp only [orderCustomerEmails, List.mem_dedup, List.mem_map,
    List.mem_filter, bne_iff_ne, ne_eq]
  constructor
  · rintro ⟨o, ⟨ho, hne⟩, hoe⟩
    exact ⟨hoe ▸ hne, o, ho, hoe⟩
  · rintro ⟨hne, o, ho, hoe⟩
    exact ⟨o, ⟨ho, hoe ▸ hne⟩, hoe⟩

theorem mem_statsEmails (orders : List StgOrder) (e : String) :
    e ∈ statsEmails orders ↔ ∃ o ∈ orders, o.email = e := by
  simp only [statsEmails, List.mem_dedup, List.mem_map]

/-- C9: every customer-dimension row has `total_orders ≥ 1`, so its segment
is `'new'` or `'returning'` — the `'prospect'` and `'unknown'` branches are
unreachable because customers are discovered from order emails and the
stats are computed over those same orders. -/
theorem customer_segment_rule (orders : List StgOrder)
    (custs : List StgCustomer) (row : DimCustomer)
    (hrow : row ∈ buildDimCustomer orders custs) :
    1 ≤ row.total_orders ∧
      (row.customer_segment = "new" ∨ row.customer_segment = "returning") := by
  simp only [buildDimCustomer, List.mem_map] at hrow
  obtain ⟨t, ht, hteq⟩ := hrow
  obtain ⟨ht1, hcase⟩ := mem_leftJoin _ _ _ t ht
  obtain ⟨he, _⟩ := mem_leftJoin _ _ _ t.1 ht1
  obtain ⟨-, o, ho, hoe⟩ := (mem_orderCustomerEmails orders t.1.1).mp he
  rcases hcase with ⟨hnone, hfil⟩ | ⟨se, hse, hsemem, hmatch⟩
  · have hmem : t.1.1 ∈ (statsEmails orders).filter
        (fun se => strToLower t.1.1 == strToLower se) :=
      List.mem_filter.mpr ⟨(mem_statsEmails orders t.1.1).mpr ⟨o, ho, hoe⟩,
        by simp⟩
    rw [hfil] at hmem
    cases hmem
  · obtain ⟨o2, ho2, ho2e⟩ := (mem_statsEmails orders se).mp hsemem
    have htot : 1 ≤ totalOrdersOf orders se := by
      unfold totalOrdersOf
      have hof : o2 ∈ orders.filter (fun o => o.email == se) :=
        List.mem_filter.mpr ⟨ho2, by simp [ho2e]⟩
      have hmm : o2.order_id ∈
          ((orders.filter (fun o => o.email == se)).map (·.order_id)).dedup :=
        List.mem_dedup.mpr (List.mem_map_of_mem _ hof)
      exact List.length_pos.mpr (List.ne_nil_of_mem hmm)
    subst hteq
    simp only [hse]
    refine ⟨htot, ?_⟩
    unfold segmentOf
    rcases Nat.lt_or_ge (totalOrdersOf orders se) 2 with h2 | h2
    · have h1 : totalOrdersOf orders se = 1 := by omega
      simp [h1]
    · have h0 : totalOrdersOf orders se ≠ 0 := by omega
      have h1 : totalOrdersOf orders se ≠ 1 := by omega
      simp [h0, h1, h2]

/-- Witness for C9: `customer_segment_rule` on the row produced for
`demoOrder`'s email. -/
theorem customer_segment_rule_witness :
    ∃ row ∈ buildDimCustomer [demoOrder] [],
      1 ≤ row.total_orders ∧
        (row.customer_segment = "new" ∨ row.customer_segment = "returning") := by
  have h : ∃ row, row ∈ buildDimCustomer [demoOrder] [] := by
    simp [buildDimCustomer, leftJoin, orderCustomerEmails, statsEmails,
      demoOrder]
  obtain ⟨row, hrow⟩ := h
  exact ⟨row, hrow, customer_segment_rule [demoOrder] [] row hrow⟩

/-- C6: after every build the shipping-method dimension is non-empty, and it
consists exactly of the rows of the distinct non-empty normalized shipping
methods, with the `'unknown'` fallback row contributed precisely when no
order carries a non-empty shipping method. -/
theorem shipping_dimension_rule (orders : List StgOrder) :
    buildDimShippingMethod orders ≠ [] ∧
    ∀ row : DimShippingMethod,
      row ∈ buildDimShippingMethod orders ↔
        ((∃ o ∈ orders, o.shipping_method ≠ "" ∧ row = shippingRowOf o) ∨
          (row = unknownShippingRow ∧ ∀ o ∈ orders, o.shipping_method = "")) := by
  by_cases hall : orders.all (fun o => o.shipping_method == "")
  · have hfil : orders.filter (fun o => o.shipping_method != "") = [] :=
      List.filter_eq_nil_iff.mpr (fun o ho => by
        have := List.all_eq_true.mp hall o ho
        simp_all)
    have hall2 : ∀ o ∈ orders, o.shipping_method = "" := fun o ho => by
      have := List.all_eq_true.mp hall o ho
      simpa using this
    constructor
    · intro hnil
      unfold buildDimShippingMethod at hnil
      rw [hfil, hall, List.dedup_eq_nil] at hnil
      simp at hnil
    · intro row
      unfold buildDimShippingMethod
      rw [List.mem_dedup, hfil, hall]
      simp only [List.map_nil, List.nil_append, if_pos, List.mem_singleton]
      constructor
      · intro hr
        exact Or.inr ⟨hr, hall2⟩
      · rintro (⟨o, ho, hne, -⟩ | ⟨hr, -⟩)
        · exact absurd (hall2 o ho) hne
        · exact hr
  · have hex : ∃ o ∈ orders, o.shipping_method ≠ "" := by
      rcases List.all_eq_false.mp (Bool.eq_false_iff.mpr hall) with ⟨o, ho, hne⟩
      exact ⟨o, ho, by simpa using hne⟩
    have hallf : orders.all (fun o => o.shipping_method == "") = false :=
      Bool.eq_false_iff.mpr hall
    constructor
    · obtain ⟨o, ho, hne⟩ := hex
      have hmem : shippingRowOf o ∈ buildDimShippingMethod orders := by
        unfold buildDimShippingMethod
        rw [List.mem_dedup]
        exact List.mem_append_left _ (List.mem_map_of_mem _
          (List.mem_filter.mpr ⟨ho, by simpa using hne⟩))
      exact List.ne_nil_of_mem hmem
    · intro row
      unfold buildDimShippingMethod
      rw [List.mem_dedup]
      simp only [hallf, Bool.false_eq_true, if_false, List.append_nil,
        List.mem_map, List.mem_filter, bne_iff_ne, ne_eq]
      constructor
      · rintro ⟨o, ⟨ho, hne⟩, hr⟩
        exact Or.inl ⟨o, ho, hne, hr.symm⟩
      · rintro (⟨o, ho, hne, hr⟩ | ⟨-, hall2⟩)
        · exact ⟨o, ⟨ho, hne⟩, hr.symm⟩
        · obtain ⟨o, ho, hne⟩ := hex
          exact absurd (hall2 o ho) hne

/-- C5 counterexample: the dimension build hashes `LOWER(email)` with no
trimming.  For the email `" A@b.com"` the produced customer key is the
digest of `" a@b.com"`, which differs from the digest of the trimmed
normalized email `"a@b.com"`, so the claimed lower-case-and-trim
normalization does not hold. -/
theorem customer_hash_counterexample :
    (buildDimCustomer [demoWsOrder] []).map (·.customer_id_hash) =
      [sha256Hex (strToLower demoWsOrder.email)] ∧
    sha256Hex (strToLower demoWsOrder.email) ≠
      sha256Hex (strTrim (strToLower demoWsOrder.email)) := by
  constructor
  · simp [buildDimCustomer, leftJoin, orderCustomerEmails, statsEmails,
      demoWsOrder]
  · decide

/-- C5 (amended): every customer key is the SHA-256 hex digest of the
lower-cased source email — with no whitespace trimming — never the raw
email string, and the order-fact customer-key resolution joins on exactly
the same lower-cased-email digest, so an order carrying the row's source
email resolves to that row. -/
theorem customer_hash_rule (orders : List StgOrder)
    (custs : List StgCustomer) (row : DimCustomer)
    (hrow : row ∈ buildDimCustomer orders custs) :
    (∃ e, e ≠ "" ∧ (∃ o ∈ orders, o.email = e) ∧
      row.customer_id_hash = sha256Hex (strToLower e)) ∧
    ∀ o : StgOrder, sha256Hex (strToLower o.email) = row.customer_id_hash →
      row ∈ factCustomerLookup o (buildDimCustomer orders custs) := by
  constructor
  · simp only [buildDimCustomer, List.mem_map] at hrow
    obtain ⟨t, ht, hteq⟩ := hrow
    obtain ⟨ht1, -⟩ := mem_leftJoin _ _ _ t ht
    obtain ⟨he, -⟩ := mem_leftJoin _ _ _ t.1 ht1
    obtain ⟨hne, o, ho, hoe⟩ := (mem_orderCustomerEmails orders t.1.1).mp he
    refine ⟨t.1.1, hne, ⟨o, ho, hoe⟩, ?_⟩
    subst hteq
    rfl
  · intro o ho
    exact List.mem_filter.mpr ⟨hrow, by simp [ho]⟩

/-- Witness for the amended C5: `customer_hash_rule` on the row produced
for `demoOrder`'s email. -/
theorem customer_hash_rule_witness :
    ∃ row ∈ buildDimCustomer [demoOrder] [],
      ∃ e, e ≠ "" ∧ (∃ o ∈ [demoOrder], o.email = e) ∧
        row.customer_id_hash = sha256Hex (strToLower e) := by
  have h : ∃ row, row ∈ buildDimCustomer [demoOrder] [] := by
    simp [buildDimCustomer, leftJoin, orderCustomerEmails, statsEmails,
      demoOrder]
  obtain ⟨row, hrow⟩ := h
  exact ⟨row, hrow, (customer_hash_rule [demoOrder] [] row hrow).1⟩

/-! ## Schema-initialization theorems -/

/-- The statement loop always returns `.ok`, with the accumulated warnings
being exactly the error messages not containing `"already exists"`. -/
theorem initStatements_ok (stmts : List StmtOutcome) (ws : List String) :
    initStatements stmts ws = Except.ok (ws ++ stmts.filterMap (fun s =>
      match s with
      | StmtOutcome.ok => none
      | StmtOutcome.err m =>
          if alreadyExistsIn m then none else some m)) := by
  induction stmts generalizing ws with
  | nil => simp [initStatements]
  | cons s rest ih =>
    cases s with
    | ok => simp [initStatements, ih]
    | err m =>
      by_cases h : alreadyExistsIn m
      · simp [initStatements, h, ih]
      · simp [initStatements, h, ih]

/-- C7 counterexample: a schema-init statement failure whose message does
not contain `"already exists"` is merely logged as a warning — the stage
still returns successfully and contributes exit status `0`; it does not
propagate and abort the run as claimed. -/
theorem init_abort_counterexample :
    initDatabase [StmtOutcome.err "syntax error at or near SELECT"] =
      Except.ok ["syntax error at or near SELECT"] ∧
    initExitCode [StmtOutcome.err "syntax error at or near SELECT"] = 0 := by
  exact ⟨rfl, rfl⟩

/-- C7 (amended): no statement failure during schema initialization ever
propagates.  Failures whose message contains `"already exists"`
(case-insensitively) are suppressed silently; every other failure is logged
as a warning; in all cases the loop rolls back that statement and
continues, and the stage never causes a nonzero exit by itself. -/
theorem init_error_rule (stmts : List StmtOutcome) :
    initDatabase stmts = Except.ok (stmts.filterMap (fun s =>
      match s with
      | StmtOutcome.ok => none
      | StmtOutcome.err m =>
          if alreadyExistsIn m then none else some m)) ∧
    initExitCode stmts = 0 := by
  have h := initStatements_ok stmts []
  refine ⟨by simpa [initDatabase] using h, ?_⟩
  unfold initExitCode initDatabase
  rw [h]

/-! ## Order-line numbering theorems -/

/-- Under per-order name distinctness, the tie-break term vanishes and the
numbering is a pure function of the kept row set. -/
theorem numberStagedAux_eq_map (all : List RawLineRow)
    (l : List RawLineRow) (prev : List RawLineRow)
    (hl : l.Pairwise (fun a b => a.order_id = b.order_id →
      a.lineitem_name ≠ b.lineitem_name))
    (hprev : ∀ y ∈ prev, ∀ r ∈ l, y.order_id = r.order_id →
      y.lineitem_name ≠ r.lineitem_name) :
    numberStagedAux all prev l = l.map (stagedRowAt all) := by
  induction l generalizing prev with
  | nil => rfl
  | cons r rest ih =>
    have hzero : prev.countP (fun y => y.order_id == r.order_id &&
        y.lineitem_name == r.lineitem_name) = 0 := by
      apply List.countP_eq_zero.mpr
      intro y hy
      have hne := hprev y hy r (List.mem_cons_self r rest)
      simp only [Bool.and_eq_true, beq_iff_eq, not_and]
      exact fun h1 h2 => hne h1 h2
    simp only [numberStagedAux, lineNumberOf, hzero, List.map_cons,
      Nat.add_zero]
    refine congrArg₂ _ rfl ?_
    apply ih
    · exact (List.pairwise_cons.mp hl).2
    · intro y hy r2 hr2
      rcases List.mem_cons.mp hy with hyr | hyp
      · subst hyr
        exact (List.pairwise_cons.mp hl).1 r2 hr2
      · exact hprev y hyp r2 (List.mem_cons_of_mem r hr2)

/-- Under per-order name distinctness, the whole staged line build is the
map of `stagedRowAt` over the kept rows. -/
theorem buildStgOrderLines_eq_map (rows : List RawLineRow)
    (hdist : (rows.filter (fun r => r.lineitem_name != "")).Pairwise
      (fun a b => a.order_id = b.order_id →
        a.lineitem_name ≠ b.lineitem_name)) :
    buildStgOrderLines rows =
      (rows.filter (fun r => r.lineitem_name != "")).map
        (stagedRowAt (rows.filter (fun r => r.lineitem_name != ""))) :=
  numberStagedAux_eq_map _ _ [] hdist (by intro y hy; cases hy)

/-- C8 counterexample: two raw rows of the same order carry the same item
name `"a"` with different quantities.  Reversing the presentation order
changes which of them receives line number `1` — the quantity-1 item is
numbered `1` in one run and not in the other — so numbering is not
determined by the row set alone. -/
theorem line_number_counterexample :
    (([⟨1, "a", 2⟩, ⟨1, "a", 1⟩] : List RawLineRow)).Perm
        [⟨1, "a", 1⟩, ⟨1, "a", 2⟩] ∧
    ({ order_id := 1, line_number := 1, lineitem_name := "a"
     , lineitem_quantity := 1 } : StagedLine) ∈
        buildStgOrderLines [⟨1, "a", 1⟩, ⟨1, "a", 2⟩] ∧
    ({ order_id := 1, line_number := 1, lineitem_name := "a"
     , lineitem_quantity := 1 } : StagedLine) ∉
        buildStgOrderLines [⟨1, "a", 2⟩, ⟨1, "a", 1⟩] :=
  ⟨List.Perm.swap _ _ _, by decide, by decide⟩

/-- C8 (amended): staged line numbering is deterministic across
presentation orders provided item names are distinct within each order
among the kept rows — then any permutation of the raw rows yields the same
multiset of staged lines, each item name keeping its line number.  (With
duplicate names in one order the `ORDER BY lineitem_name` tie leaves the
assignment presentation-dependent, see the counterexample.) -/
theorem line_number_deterministic (rows₁ rows₂ : List RawLineRow)
    (hperm : rows₁.Perm rows₂)
    (hdist : (rows₁.filter (fun r => r.lineitem_name != "")).Pairwise
      (fun a b => a.order_id = b.order_id →
        a.lineitem_name ≠ b.lineitem_name)) :
    (buildStgOrderLines rows₁).Perm (buildStgOrderLines rows₂) := by
  have hpf := hperm.filter (fun r => r.lineitem_name != "")
  have hdist₂ := (hpf.pairwise_iff
    (fun hab heq => (hab heq.symm).symm)).mp hdist
  rw [buildStgOrderLines_eq_map rows₁ hdist,
    buildStgOrderLines_eq_map rows₂ hdist₂]
  have hmapeq :
      (rows₂.filter (fun r => r.lineitem_name != "")).map
        (stagedRowAt (rows₂.filter (fun r => r.lineitem_name != ""))) =
      (rows₂.filter (fun r => r.lineitem_name != "")).map
        (stagedRowAt (rows₁.filter (fun r => r.lineitem_name != ""))) :=
    List.map_congr_left (fun r _ => by
      unfold stagedRowAt
      rw [hpf.countP_eq])
  rw [hmapeq]
  exact hpf.map _

/-- Witness for the amended C8: two distinct-name rows presented in both
orders stage to the same multiset. -/
theorem line_number_deterministic_witness :
    (buildStgOrderLines [⟨1, "Oud 50ml", 1⟩, ⟨1, "Rose 50ml", 2⟩]).Perm
      (buildStgOrderLines [⟨1, "Rose 50ml", 2⟩, ⟨1, "Oud 50ml", 1⟩]) :=
  line_number_deterministic _ _ (List.Perm.swap _ _ _)
    (by simp [List.pairwise_cons])

end AkhdarBI
